import Mathlib

/-!
Shallow embedding of `pdcli.py` (PagerDuty CLI), centred on the
background auto-acknowledge daemon (`background_ack`), the API client
(`get_incidents`, `acknowledge_incident`), the age evaluator
(`get_incident_age_minutes`) and the notifier (`send_notification`).

Modelling decisions:
  * Instants are integers counting microseconds (Python `datetime` has
    microsecond resolution); `timedelta.total_seconds()` is division by
    1000000, and the age in minutes is a further division by 60.
    Arithmetic is exact (`ℚ` instead of IEEE floats); for the magnitudes
    appearing in the claims the float computation is exact in the same way.
  * External effects (HTTP calls, `subprocess.run`, `sys.stdout.write`,
    `datetime.now`) are oracles passed in explicitly.  A raised Python
    exception is `Except.error` carrying the message.  `datetime.now` is a
    clock function `Nat → Int` consumed at successive indices: index `i`
    is the value the `i`-th call to `now` returns.
  * The daemon's infinite `while True` loop is modelled on a finite list
    of per-cycle environments (one `CycleEnv` per iteration); traces of
    observable actions are recorded as event lists.  `KeyboardInterrupt`
    (the `break` branch) is outside the model: the modelled errors are the
    ones the `except Exception` clause sees.
-/

namespace PdCli

/-- The incident record, with the fields `background_ack` reads.
`createdAt` is the parsed `created_at` instant in microseconds UTC. -/
structure Incident where
  id : String
  status : String
  createdAt : Int
  service : String
  summary : String
deriving DecidableEq

/-- `get_incident_age_minutes`, with the sampled `now` made explicit:
`(now - created).total_seconds() / 60`. -/
def get_incident_age_minutes (now : Int) (inc : Incident) : ℚ :=
  (((now - inc.createdAt : Int) : ℚ) / 1000000) / 60

/-- The age the daemon computes for the incident whose `now` sample is the
`idx`-th call to `datetime.now`. -/
def ageAt (clock : Nat → Int) (idx : Nat) (inc : Incident) : ℚ :=
  get_incident_age_minutes (clock idx) inc

/-- Observable actions of one daemon cycle. -/
inductive Event where
  | age (id : String) (minutes : ℚ)
  | ackCall (id : String)
  | noteCall (title : String) (body : String)
deriving DecidableEq

/-- The external world one cycle of `background_ack` interacts with. -/
structure CycleEnv where
  fetch : Except String (List Incident)
  ack : String → Except String Bool
  notify : String → String → Except String Unit
  clock : Nat → Int

/-- Notification title used by `background_ack` (line 255). -/
def notifTitle : String := "PagerDuty Auto-Ack"

/-- Notification body composed by `background_ack`:
service summary, colon, summary truncated to 50 characters. -/
def notifBody (inc : Incident) : String :=
  inc.service ++ ": " ++ inc.summary.take 50

/-- The `for inc in triggered` loop of `background_ack` (lines 243-255):
computes each incident's age with a fresh `now` sample, calls
`acknowledge_incident` when `age_min >= interval_minutes`, and sends one
notification after a successful acknowledgement.  Returns the event
trace, the clock index after the run, and the escaping exception if one
was raised. -/
def background_ack_incidents (env : CycleEnv) (N : ℕ) :
    List Incident → Nat → List Event × Nat × Option String
  | [], idx => ([], idx, none)
  | inc :: rest, idx =>
    let a := ageAt env.clock idx inc
    if (N : ℚ) ≤ a then
      match env.ack inc.id with
      | .error e => ([.age inc.id a, .ackCall inc.id], idx + 1, some e)
      | .ok true =>
        match env.notify notifTitle (notifBody inc) with
        | .error e =>
          ([.age inc.id a, .ackCall inc.id, .noteCall notifTitle (notifBody inc)],
            idx + 1, some e)
        | .ok _ =>
          let r := background_ack_incidents env N rest (idx + 1)
          (.age inc.id a :: .ackCall inc.id :: .noteCall notifTitle (notifBody inc) :: r.1,
            r.2.1, r.2.2)
      | .ok false =>
        let r := background_ack_incidents env N rest (idx + 1)
        (.age inc.id a :: .ackCall inc.id :: r.1, r.2.1, r.2.2)
    else
      let r := background_ack_incidents env N rest (idx + 1)
      (.age inc.id a :: r.1, r.2.1, r.2.2)

/-- The status filter of `background_ack` line 241. -/
def triggeredOf (incs : List Incident) : List Incident :=
  incs.filter (fun i => i.status == "triggered")

/-- One `try` body of the daemon loop: fetch, filter to triggered,
process.  Returns the cycle's event trace and the escaping exception. -/
def background_ack_cycle (env : CycleEnv) (N : ℕ) : List Event × Option String :=
  match env.fetch with
  | .error e => ([], some e)
  | .ok incs =>
    let r := background_ack_incidents env N (triggeredOf incs) 0
    (r.1, r.2.2)

/-- Daemon-level observations: cycle events, the `print(f"Error: ...")`
of the `except Exception` clause, and `time.sleep(sleep_seconds)`. -/
inductive DEvent where
  | ev (e : Event)
  | errorLogged (msg : String)
  | slept (seconds : ℕ)
deriving DecidableEq

/-- One iteration of `while True` (lines 238-264): on success sleep
`interval_minutes * 60` seconds; on an exception log the message and
sleep the same amount. -/
def background_ack_step (env : CycleEnv) (N : ℕ) : List DEvent :=
  let r := background_ack_cycle env N
  r.1.map DEvent.ev ++
    (match r.2 with
     | some e => [DEvent.errorLogged e, DEvent.slept (N * 60)]
     | none => [DEvent.slept (N * 60)])

/-- Finitely many iterations of the daemon loop, one environment per
iteration. -/
def background_ack_daemon (envs : List CycleEnv) (N : ℕ) : List DEvent :=
  match envs with
  | [] => []
  | env :: rest => background_ack_step env N ++ background_ack_daemon rest N

/-! ### Notifier (`send_terminal_notification`, `send_macos_notification`,
`send_notification`, lines 121-148)

The two sinks are oracles: `stdoutWrite` is `sys.stdout.write` plus
`flush` (an `OSError` is `Except.error`), and `run` is `subprocess.run`
with `capture_output=True` (a spawn failure such as `FileNotFoundError`
when `osascript` is absent is `Except.error`; on success it returns the
helper's exit code, which the source never inspects — there is no
`check=True`).  Runs record the attempted side effects as a trace. -/

/-- External sinks of the notifier. -/
structure NotifyWorld where
  stdoutWrite : String → Except String Unit
  run : List String → Except String Int

/-- Attempted notifier side effects. -/
inductive NAct where
  | wrote (s : String)
  | spawned (argv : List String)
deriving DecidableEq

/-- Sequencing of two effectful steps: Python runs the second statement
only when the first did not raise, and an exception propagates. -/
def seqN (a : List NAct × Except String Unit) (b : List NAct × Except String Unit) :
    List NAct × Except String Unit :=
  match a.2 with
  | .ok _ => (a.1 ++ b.1, b.2)
  | .error e => (a.1, .error e)

/-- One `sys.stdout.write(s); sys.stdout.flush()` pair. -/
def writeStdout (w : NotifyWorld) (s : String) : List NAct × Except String Unit :=
  ([.wrote s], w.stdoutWrite s)

/-- The OSC 9 escape string of line 125. -/
def osc9 (title body : String) : String :=
  "\x1b]9;" ++ title ++ ": " ++ body ++ "\x07"

/-- The OSC 99 escape string of line 131. -/
def osc99 (body : String) : String :=
  "\x1b]99;i=1:d=0;" ++ body ++ "\x1b\\"

/-- `send_terminal_notification`: two stdout writes in sequence, no
exception handling. -/
def send_terminal_notification (w : NotifyWorld) (title body : String) :
    List NAct × Except String Unit :=
  seqN (writeStdout w (osc9 title body)) (writeStdout w (osc99 body))

/-- The argv `subprocess.run` receives on line 140. -/
def osascriptArgs (title body : String) : List String :=
  ["osascript", "-e",
    "display notification \"" ++ body ++ "\" with title \"" ++ title ++ "\""]

/-- `send_macos_notification`: spawns `osascript`; a spawn failure
propagates, a non-zero exit code is ignored (`capture_output=True`,
no `check`). -/
def send_macos_notification (w : NotifyWorld) (title body : String) :
    List NAct × Except String Unit :=
  ([.spawned (osascriptArgs title body)],
    match w.run (osascriptArgs title body) with
    | .error e => .error e
    | .ok _ => .ok ())

/-- `send_notification`: terminal channel then macOS channel, in
sequence, with no exception handling around either. -/
def send_notification (w : NotifyWorld) (title body : String) :
    List NAct × Except String Unit :=
  seqN (send_terminal_notification w title body) (send_macos_notification w title body)

/-! ### API client (`get_incidents`, `acknowledge_incident`, lines 74-104) -/

/-- An HTTP response as far as `acknowledge_incident` inspects it. -/
structure HttpResponse where
  status_code : ℕ
deriving DecidableEq

/-- `acknowledge_incident` applied to the response of the PUT: returns
`resp.status_code == 200`; no `raise_for_status`, so a received response
never raises (the plain `Bool` return type encodes this). -/
def acknowledge_incident (resp : HttpResponse) : Bool :=
  resp.status_code == 200

/-- A response of the per-status GET of `get_incidents`: the status code
and the decoded `incidents` array. -/
structure GetResp where
  status_code : ℕ
  incidents : List Incident
deriving DecidableEq

/-- `requests.Response.raise_for_status`: raises `HTTPError` exactly for
status codes in `[400, 600)`. -/
def raise_for_status (code : ℕ) : Except String Unit :=
  if 400 ≤ code ∧ code < 600 then .error ("HTTPError " ++ toString code) else .ok ()

/-- The `for status in [...]` loop of `get_incidents`: one GET per
status (`get` is the transport oracle; `Except.error` is a transport
failure), `raise_for_status`, then `incidents.extend(...)`. -/
def get_incidents_loop (get : String → Except String GetResp) :
    List String → Except String (List Incident)
  | [] => .ok []
  | s :: rest =>
    match get s with
    | .error e => .error e
    | .ok resp =>
      match raise_for_status resp.status_code with
      | .error e => .error e
      | .ok _ =>
        match get_incidents_loop get rest with
        | .error e => .error e
        | .ok more => .ok (resp.incidents ++ more)

/-- `get_incidents`: the loop over `["triggered", "acknowledged"]`. -/
def get_incidents (get : String → Except String GetResp) :
    Except String (List Incident) :=
  get_incidents_loop get ["triggered", "acknowledged"]

/-! ### Concrete fixtures for scenarios, witnesses and counterexamples -/

/-- A triggered incident created 10 minutes before instant 0. -/
def c1IncA : Incident := ⟨"A", "triggered", -600000000, "svcA", "sumA"⟩

/-- A triggered incident created 1 minute before instant 0. -/
def c1IncB : Incident := ⟨"B", "triggered", -60000000, "svcB", "sumB"⟩

/-- The end-to-end scenario environment: two triggered incidents aged 10
and 1 minutes, acknowledgement succeeding, notification succeeding, the
clock frozen at instant 0. -/
def c1Env : CycleEnv :=
  ⟨.ok [c1IncA, c1IncB], fun _ => .ok true, fun _ _ => .ok (), fun _ => 0⟩

/-- A single-incident environment used to instantiate general theorems. -/
def c1SingleEnv : CycleEnv :=
  ⟨.ok [c1IncA], fun _ => .ok true, fun _ _ => .ok (), fun _ => 0⟩

/-- Incident "A" created at instant 0. -/
def c5IncA : Incident := ⟨"A", "triggered", 0, "s", "m"⟩

/-- Incident "B" also created at instant 0. -/
def c5IncB : Incident := ⟨"B", "triggered", 0, "s", "m"⟩

/-- An environment whose clock advances one minute between successive
`datetime.now` calls, with two incidents created at the same instant. -/
def c5Env : CycleEnv :=
  ⟨.ok [c5IncA, c5IncB], fun _ => .ok true, fun _ _ => .ok (), fun i => (i : Int) * 60000000⟩

/-- An environment whose acknowledgement call always reports failure
(e.g. a 4xx conflict, so `acknowledge_incident` returned `false`). -/
def c7Env : CycleEnv :=
  ⟨.ok [c1IncA, c1IncB], fun _ => .ok false, fun _ _ => .ok (), fun _ => 0⟩

/-- An environment whose notification call raises (e.g. `osascript`
absent, so `subprocess.run` raises `FileNotFoundError`). -/
def c10Env : CycleEnv :=
  ⟨.ok [c1IncA, c1IncB], fun _ => .ok true, fun _ _ => .error "FileNotFoundError", fun _ => 0⟩

/-- An environment whose fetch raises. -/
def cFailEnv : CycleEnv :=
  ⟨.error "ConnectionError", fun _ => .ok true, fun _ _ => .ok (), fun _ => 0⟩

/-- A notifier world whose stdout writes raise `OSError` and whose
subprocess spawns succeed. -/
def wStdoutFail : NotifyWorld := ⟨fun _ => .error "OSError", fun _ => .ok 0⟩

/-- A notifier world in which both sinks work. -/
def wAllOk : NotifyWorld := ⟨fun _ => .ok (), fun _ => .ok 0⟩

/-- Mock per-status responses: 2 triggered records and 3 acknowledged
records, both GETs returning 200. -/
def mockR1 : GetResp := ⟨200, [⟨"t1", "triggered", 0, "s", "m"⟩, ⟨"t2", "triggered", 0, "s", "m"⟩]⟩

/-- The acknowledged-status mock response (3 records). -/
def mockR2 : GetResp :=
  ⟨200, [⟨"a1", "acknowledged", 0, "s", "m"⟩, ⟨"a2", "acknowledged", 0, "s", "m"⟩,
    ⟨"a3", "acknowledged", 0, "s", "m"⟩]⟩

/-- The mock transport for `get_incidents`. -/
def mockGet (s : String) : Except String GetResp :=
  if s = "triggered" then .ok mockR1 else .ok mockR2

/-! ### Helper lemmas -/

/-- The terminal channel's trace consists of stdout writes only. -/
lemma send_terminal_trace_wrote (w : NotifyWorld) (title body : String) :
    ∀ a ∈ (send_terminal_notification w title body).1, ∃ s, a = NAct.wrote s := by
  intro a ha
  unfold send_terminal_notification seqN writeStdout at ha
  cases h : w.stdoutWrite (osc9 title body) with
  | ok u => rw [h] at ha; simp at ha; rcases ha with rfl | rfl <;> exact ⟨_, rfl⟩
  | error e => rw [h] at ha; simp at ha; exact ⟨_, ha⟩

/-- Every acknowledgement call recorded by the incident loop belongs to
an incident of the processed list. -/
lemma ackCall_from_list (env : CycleEnv) (N : ℕ) :
    ∀ (l : List Incident) (idx : ℕ) (id : String),
      Event.ackCall id ∈ (background_ack_incidents env N l idx).1 →
      ∃ inc ∈ l, inc.id = id := by
  intro l
  induction l with
  | nil => intro idx id h; simp [background_ack_incidents] at h
  | cons inc rest ih =>
    intro idx id h
    simp only [background_ack_incidents] at h
    by_cases hN : (N : ℚ) ≤ ageAt env.clock idx inc
    · rw [if_pos hN] at h
      cases hack : env.ack inc.id with
      | error e =>
        rw [hack] at h
        simp only [List.mem_cons, List.not_mem_nil, or_false] at h
        rcases h with h | h
        · exact absurd h (by simp)
        · exact ⟨inc, by simp, by injection h with h2; exact h2.symm⟩
      | ok b =>
        cases b
        · rw [hack] at h
          simp only [List.mem_cons] at h
          rcases h with h | h | h
          · exact absurd h (by simp)
          · exact ⟨inc, by simp, by injection h with h2; exact h2.symm⟩
          · obtain ⟨inc2, hm, hi⟩ := ih (idx + 1) id (by simpa using h)
            exact ⟨inc2, by simp [hm], hi⟩
        · cases hnote : env.notify notifTitle (notifBody inc) with
          | error e =>
            rw [hack, hnote] at h
            simp only [List.mem_cons, List.not_mem_nil, or_false] at h
            rcases h with h | h | h
            · exact absurd h (by simp)
            · exact ⟨inc, by simp, by injection h with h2; exact h2.symm⟩
            · exact absurd h (by simp)
          | ok u =>
            rw [hack, hnote] at h
            simp only [List.mem_cons] at h
            rcases h with h | h | h | h
            · exact absurd h (by simp)
            · exact ⟨inc, by simp, by injection h with h2; exact h2.symm⟩
            · exact absurd h (by simp)
            · obtain ⟨inc2, hm, hi⟩ := ih (idx + 1) id (by simpa using h)
              exact ⟨inc2, by simp [hm], hi⟩
    · rw [if_neg hN] at h
      simp only [List.mem_cons] at h
      rcases h with h | h
      · exact absurd h (by simp)
      · obtain ⟨inc2, hm, hi⟩ := ih (idx + 1) id (by simpa using h)
        exact ⟨inc2, by simp [hm], hi⟩

/-- Loop step: incident below the age threshold. -/
lemma bg_cons_ineligible (env : CycleEnv) (N : ℕ) (inc : Incident) (l : List Incident)
    (idx : ℕ) (hN : ¬ (N : ℚ) ≤ ageAt env.clock idx inc) :
    background_ack_incidents env N (inc :: l) idx =
      (Event.age inc.id (ageAt env.clock idx inc) ::
        (background_ack_incidents env N l (idx + 1)).1,
       (background_ack_incidents env N l (idx + 1)).2.1,
       (background_ack_incidents env N l (idx + 1)).2.2) := by
  simp [background_ack_incidents, if_neg hN]

/-- Loop step: eligible incident whose acknowledgement call raises. -/
lemma bg_cons_ack_error (env : CycleEnv) (N : ℕ) (inc : Incident) (l : List Incident)
    (idx : ℕ) (e : String) (hN : (N : ℚ) ≤ ageAt env.clock idx inc)
    (hack : env.ack inc.id = .error e) :
    background_ack_incidents env N (inc :: l) idx =
      ([Event.age inc.id (ageAt env.clock idx inc), Event.ackCall inc.id],
        idx + 1, some e) := by
  simp [background_ack_incidents, if_pos hN, hack]

/-- Loop step: eligible incident whose acknowledgement reports failure. -/
lemma bg_cons_ack_false (env : CycleEnv) (N : ℕ) (inc : Incident) (l : List Incident)
    (idx : ℕ) (hN : (N : ℚ) ≤ ageAt env.clock idx inc)
    (hack : env.ack inc.id = .ok false) :
    background_ack_incidents env N (inc :: l) idx =
      (Event.age inc.id (ageAt env.clock idx inc) :: Event.ackCall inc.id ::
        (background_ack_incidents env N l (idx + 1)).1,
       (background_ack_incidents env N l (idx + 1)).2.1,
       (background_ack_incidents env N l (idx + 1)).2.2) := by
  simp [background_ack_incidents, if_pos hN, hack]

/-- Loop step: successful acknowledgement, notification raises. -/
lemma bg_cons_note_error (env : CycleEnv) (N : ℕ) (inc : Incident) (l : List Incident)
    (idx : ℕ) (e : String) (hN : (N : ℚ) ≤ ageAt env.clock idx inc)
    (hack : env.ack inc.id = .ok true)
    (hnote : env.notify notifTitle (notifBody inc) = .error e) :
    background_ack_incidents env N (inc :: l) idx =
      ([Event.age inc.id (ageAt env.clock idx inc), Event.ackCall inc.id,
        Event.noteCall notifTitle (notifBody inc)], idx + 1, some e) := by
  simp [background_ack_incidents, if_pos hN, hack, hnote]

/-- Loop step: successful acknowledgement and notification. -/
lemma bg_cons_note_ok (env : CycleEnv) (N : ℕ) (inc : Incident) (l : List Incident)
    (idx : ℕ) (hN : (N : ℚ) ≤ ageAt env.clock idx inc)
    (hack : env.ack inc.id = .ok true)
    (hnote : env.notify notifTitle (notifBody inc) = .ok ()) :
    background_ack_incidents env N (inc :: l) idx =
      (Event.age inc.id (ageAt env.clock idx inc) :: Event.ackCall inc.id ::
        Event.noteCall notifTitle (notifBody inc) ::
        (background_ack_incidents env N l (idx + 1)).1,
       (background_ack_incidents env N l (idx + 1)).2.1,
       (background_ack_incidents env N l (idx + 1)).2.2) := by
  simp [background_ack_incidents, if_pos hN, hack, hnote]

/-- When a prefix of the list is processed without an exception, the loop
continues into the suffix with the prefix's final clock index. -/
lemma background_ack_incidents_append_ok (env : CycleEnv) (N : ℕ) :
    ∀ (l1 : List Incident) (idx : ℕ),
      (background_ack_incidents env N l1 idx).2.2 = none →
      ∀ (l2 : List Incident),
        background_ack_incidents env N (l1 ++ l2) idx =
          ((background_ack_incidents env N l1 idx).1 ++
            (background_ack_incidents env N l2
              ((background_ack_incidents env N l1 idx).2.1)).1,
           (background_ack_incidents env N l2
              ((background_ack_incidents env N l1 idx).2.1)).2.1,
           (background_ack_incidents env N l2
              ((background_ack_incidents env N l1 idx).2.1)).2.2) := by
  intro l1
  induction l1 with
  | nil => intro idx h l2; simp [background_ack_incidents]
  | cons inc rest ih =>
    intro idx h l2
    rw [List.cons_append]
    by_cases hN : (N : ℚ) ≤ ageAt env.clock idx inc
    · cases hack : env.ack inc.id with
      | error e =>
        rw [bg_cons_ack_error env N inc rest idx e hN hack] at h
        simp at h
      | ok b =>
        cases b
        · rw [bg_cons_ack_false env N inc rest idx hN hack] at h
          simp only at h
          have := ih (idx + 1) h l2
          rw [bg_cons_ack_false env N inc (rest ++ l2) idx hN hack,
            bg_cons_ack_false env N inc rest idx hN hack, this]
          simp
        · cases hnote : env.notify notifTitle (notifBody inc) with
          | error e =>
            rw [bg_cons_note_error env N inc rest idx e hN hack hnote] at h
            simp at h
          | ok u =>
            obtain ⟨⟩ := u
            rw [bg_cons_note_ok env N inc rest idx hN hack hnote] at h
            simp only at h
            have := ih (idx + 1) h l2
            rw [bg_cons_note_ok env N inc (rest ++ l2) idx hN hack hnote,
              bg_cons_note_ok env N inc rest idx hN hack hnote, this]
            simp
    · rw [bg_cons_ineligible env N inc rest idx hN] at h
      simp only at h
      have := ih (idx + 1) h l2
      rw [bg_cons_ineligible env N inc (rest ++ l2) idx hN,
        bg_cons_ineligible env N inc rest idx hN, this]
      simp

/-! ### Claim theorems -/

/-- C1: in one daemon cycle with interval `N`, a fetched triggered
incident has the acknowledgement operation invoked on it exactly when its
computed age is at least `N`; the boundary is inclusive: an incident
created exactly `N` minutes before the sampled "now" is eligible, one
created a microsecond (one tick) later is not; and in the concrete
scenario of two triggered incidents aged 10 and 1 minutes with interval
3, the cycle acknowledges exactly the first and makes exactly one
notification call. -/
theorem ack_iff_age_threshold :
    (∀ (env : CycleEnv) (inc : Incident) (N : ℕ),
      env.fetch = .ok [inc] → inc.status = "triggered" →
      (Event.ackCall inc.id ∈ (background_ack_cycle env N).1 ↔
        (N : ℚ) ≤ ageAt env.clock 0 inc)) ∧
    (∀ (now : Int) (N : ℕ) (inc : Incident),
      inc.createdAt = now - (N : Int) * 60000000 →
      (N : ℚ) ≤ get_incident_age_minutes now inc) ∧
    (∀ (now : Int) (N : ℕ) (inc : Incident),
      inc.createdAt = now - (N : Int) * 60000000 + 1 →
      ¬ (N : ℚ) ≤ get_incident_age_minutes now inc) ∧
    background_ack_cycle c1Env 3 =
      ([.age "A" 10, .ackCall "A", .noteCall notifTitle (notifBody c1IncA), .age "B" 1],
        none) := by
  refine ⟨?_, ?_, ?_, ?_⟩
  · intro env inc N hf hs
    have ht : triggeredOf [inc] = [inc] := by simp [triggeredOf, hs]
    simp only [background_ack_cycle, hf, ht]
    by_cases hN : (N : ℚ) ≤ ageAt env.clock 0 inc
    · refine iff_of_true ?_ hN
      simp only [background_ack_incidents, if_pos hN]
      cases hack : env.ack inc.id with
      | error e => simp
      | ok b =>
        cases b
        · simp
        · cases hnote : env.notify notifTitle (notifBody inc) with
          | error e => simp
          | ok u => simp
    · refine iff_of_false ?_ hN
      simp [background_ack_incidents, if_neg hN]
  · intro now N inc h
    unfold get_incident_age_minutes
    rw [h]
    have h2 : now - (now - (N : Int) * 60000000) = (N : Int) * 60000000 := by ring
    rw [h2]
    push_cast
    rw [div_div, le_div_iff₀ (by norm_num : (0 : ℚ) < 1000000 * 60)]
    ring_nf
    exact le_refl _
  · intro now N inc h
    unfold get_incident_age_minutes
    rw [h]
    have h2 : now - (now - (N : Int) * 60000000 + 1) = (N : Int) * 60000000 - 1 := by ring
    rw [h2]
    push_cast
    rw [not_le, div_div, div_lt_iff₀ (by norm_num : (0 : ℚ) < 1000000 * 60)]
    ring_nf
    norm_num
  · simp only [background_ack_cycle, background_ack_incidents, triggeredOf, c1Env, c1IncA,
      c1IncB, ageAt, get_incident_age_minutes]
    norm_num

/-- Witness for C1: in a cycle that fetches the single triggered incident
aged 10 minutes, the acknowledgement call is made with interval 3. -/
theorem ack_iff_age_threshold_witness :
    Event.ackCall c1IncA.id ∈ (background_ack_cycle c1SingleEnv 3).1 :=
  (ack_iff_age_threshold.1 c1SingleEnv c1IncA 3 rfl rfl).mpr
    (by norm_num [ageAt, get_incident_age_minutes, c1SingleEnv, c1IncA])

/-- C2: an exception escaping a cycle is caught at the cycle boundary,
its message is logged, exactly one sleep of `interval * 60` seconds
follows, and the daemon goes on to run the next cycle — it never
terminates on a single cycle's error. -/
theorem cycle_error_caught (envs : List CycleEnv) (env : CycleEnv) (N : ℕ) (e : String)
    (h : (background_ack_cycle env N).2 = some e) :
    background_ack_step env N =
      (background_ack_cycle env N).1.map DEvent.ev ++
        [DEvent.errorLogged e, DEvent.slept (N * 60)] ∧
    background_ack_daemon (env :: envs) N =
      background_ack_step env N ++ background_ack_daemon envs N := by
  refine ⟨?_, rfl⟩
  simp [background_ack_step, h]

/-- Witness for C2: a cycle whose fetch raises `ConnectionError` logs the
message, sleeps 180 seconds, and the daemon continues. -/
theorem cycle_error_caught_witness :
    background_ack_step cFailEnv 3 =
      (background_ack_cycle cFailEnv 3).1.map DEvent.ev ++
        [DEvent.errorLogged "ConnectionError", DEvent.slept (3 * 60)] ∧
    background_ack_daemon (cFailEnv :: []) 3 =
      background_ack_step cFailEnv 3 ++ background_ack_daemon [] 3 :=
  cycle_error_caught [] cFailEnv 3 "ConnectionError" rfl

/-- C3: every acknowledgement call a cycle makes is for the id of an
incident observed with status "triggered" in that same cycle's fetch;
hence an incident whose fetched status is not "triggered" is never
acknowledged in that cycle. -/
theorem non_triggered_never_acked (env : CycleEnv) (N : ℕ) (incs : List Incident)
    (id : String) (hf : env.fetch = .ok incs)
    (hc : Event.ackCall id ∈ (background_ack_cycle env N).1) :
    ∃ inc ∈ incs, inc.status = "triggered" ∧ inc.id = id := by
  simp only [background_ack_cycle, hf] at hc
  obtain ⟨inc, hmem, hid⟩ := ackCall_from_list env N (triggeredOf incs) 0 id hc
  simp only [triggeredOf] at hmem
  have h2 := List.mem_filter.mp hmem
  exact ⟨inc, h2.1, by simpa using h2.2, hid⟩

/-- Witness for C3: the acknowledgement call observed in the
single-incident cycle belongs to a triggered incident of its fetch. -/
theorem non_triggered_never_acked_witness :
    ∃ inc ∈ [c1IncA], inc.status = "triggered" ∧ inc.id = "A" :=
  non_triggered_never_acked c1SingleEnv 3 [c1IncA] "A" rfl
    (by norm_num [background_ack_cycle, background_ack_incidents, triggeredOf,
      c1SingleEnv, c1IncA, ageAt, get_incident_age_minutes])

/-- C4 counterexample: the claim "send_notification never raises to its
caller and a failing channel does not prevent the other" is false: with a
stdout that raises `OSError`, `send_notification` propagates the error to
its caller and the OS-native channel is never spawned. -/
theorem notify_failure_not_swallowed :
    send_notification wStdoutFail "t" "b" =
      ([NAct.wrote (osc9 "t" "b")], .error "OSError") ∧
    (∀ argv, NAct.spawned argv ∉ (send_notification wStdoutFail "t" "b").1) := by
  constructor
  · rfl
  · intro argv h
    rw [show send_notification wStdoutFail "t" "b" =
        ([NAct.wrote (osc9 "t" "b")], .error "OSError") from rfl] at h
    simp at h

/-- C4 as amended: `send_notification` has no exception handling: it
completes normally exactly when both channels do; an exception in the
terminal channel propagates to the caller and prevents the OS-native
channel from being attempted; only a non-zero exit code of a
successfully spawned helper is ignored. -/
theorem send_notification_propagates (w : NotifyWorld) (title body : String) :
    ((send_notification w title body).2 = .ok () ↔
      (send_terminal_notification w title body).2 = .ok () ∧
      (send_macos_notification w title body).2 = .ok ()) ∧
    (∀ e, (send_terminal_notification w title body).2 = .error e →
      send_notification w title body =
        ((send_terminal_notification w title body).1, .error e) ∧
      ∀ argv, NAct.spawned argv ∉ (send_notification w title body).1) ∧
    (∀ code, w.run (osascriptArgs title body) = .ok code →
      (send_macos_notification w title body).2 = .ok ()) := by
  refine ⟨?_, ?_, ?_⟩
  · cases h : (send_terminal_notification w title body).2 with
    | ok u =>
      obtain ⟨⟩ := u
      simp [send_notification, seqN, h]
    | error e =>
      simp [send_notification, seqN, h]
  · intro e he
    constructor
    · simp [send_notification, seqN, he]
    · intro argv hmem
      simp only [send_notification, seqN, he] at hmem
      obtain ⟨s, hs⟩ := send_terminal_trace_wrote w title body _ hmem
      exact absurd hs (by simp)
  · intro code hc
    simp [send_macos_notification, hc]

/-- Witness for C4 as amended: with both sinks working,
`send_notification` completes normally. -/
theorem send_notification_propagates_witness :
    (send_notification wAllOk "t" "b").2 = .ok () :=
  ((send_notification_propagates wAllOk "t" "b").1).mpr ⟨rfl, rfl⟩

/-- C5 counterexample: the claim "the reference now is sampled once per
evaluation pass, so all incidents of one fetch are compared against the
same instant" is false: with a clock that advances one minute between
`datetime.now` calls, two incidents created at the same instant get
different ages (0 and 1 minutes) within a single cycle. -/
theorem now_resampled_counterexample :
    background_ack_cycle c5Env 1000000 =
      ([.age "A" 0, .age "B" 1], none) ∧
    c5IncA.createdAt = c5IncB.createdAt ∧
    get_incident_age_minutes (c5Env.clock 0) c5IncA ≠
      get_incident_age_minutes (c5Env.clock 1) c5IncB := by
  refine ⟨?_, rfl, ?_⟩
  · simp only [background_ack_cycle, background_ack_incidents, triggeredOf, c5Env, c5IncA,
      c5IncB, ageAt, get_incident_age_minutes]
    norm_num
  · norm_num [get_incident_age_minutes, c5Env, c5IncA, c5IncB]

/-- C5 as amended: "now" is re-sampled per incident — the age of the
`k`-th incident of the processed list is computed against the `k`-th
successive `datetime.now` sample, not against a single shared instant. -/
theorem age_uses_fresh_now (env : CycleEnv) (N : ℕ) :
    ∀ (l : List Incident) (idx : ℕ),
      (background_ack_incidents env N l idx).2.2 = none →
      ∀ (k : ℕ) (hk : k < l.length),
        Event.age (l.get ⟨k, hk⟩).id (ageAt env.clock (idx + k) (l.get ⟨k, hk⟩)) ∈
          (background_ack_incidents env N l idx).1 := by
  intro l
  induction l with
  | nil => intro idx h k hk; exact absurd hk (by simp)
  | cons inc rest ih =>
    intro idx h k hk
    simp only [background_ack_incidents] at h ⊢
    by_cases hN : (N : ℚ) ≤ ageAt env.clock idx inc
    · rw [if_pos hN] at h ⊢
      cases hack : env.ack inc.id with
      | error e => simp [hack] at h
      | ok b =>
        cases b
        · cases k with
          | zero => simp
          | succ k2 =>
            have hk2 : k2 < rest.length := by simpa using hk
            have hr : (background_ack_incidents env N rest (idx + 1)).2.2 = none := by
              simpa [hack] using h
            have hmem := ih (idx + 1) hr k2 hk2
            rw [show idx + (k2 + 1) = idx + 1 + k2 from by omega]
            exact List.mem_cons_of_mem _ (List.mem_cons_of_mem _ hmem)
        · cases hnote : env.notify notifTitle (notifBody inc) with
          | error e => simp [hack, hnote] at h
          | ok u =>
            cases k with
            | zero => simp
            | succ k2 =>
              have hk2 : k2 < rest.length := by simpa using hk
              have hr : (background_ack_incidents env N rest (idx + 1)).2.2 = none := by
                simpa [hack, hnote] using h
              have hmem := ih (idx + 1) hr k2 hk2
              rw [show idx + (k2 + 1) = idx + 1 + k2 from by omega]
              exact List.mem_cons_of_mem _
                (List.mem_cons_of_mem _ (List.mem_cons_of_mem _ hmem))
    · rw [if_neg hN] at h ⊢
      cases k with
      | zero => simp
      | succ k2 =>
        have hk2 : k2 < rest.length := by simpa using hk
        have hr : (background_ack_incidents env N rest (idx + 1)).2.2 = none := by
          simpa using h
        have hmem := ih (idx + 1) hr k2 hk2
        rw [show idx + (k2 + 1) = idx + 1 + k2 from by omega]
        exact List.mem_cons_of_mem _ hmem

/-- Witness for C5 as amended: the second incident's age is computed
against the second clock sample. -/
theorem age_uses_fresh_now_witness :
    Event.age ([c5IncA, c5IncB].get ⟨1, by norm_num⟩).id
      (ageAt c5Env.clock (0 + 1) ([c5IncA, c5IncB].get ⟨1, by norm_num⟩)) ∈
      (background_ack_incidents c5Env 1000000 [c5IncA, c5IncB] 0).1 :=
  age_uses_fresh_now c5Env 1000000 [c5IncA, c5IncB] 0
    (by norm_num [background_ack_incidents, ageAt, get_incident_age_minutes, c5Env,
      c5IncA, c5IncB])
    1 (by norm_num)

/-- C6: for every received HTTP response, `acknowledge_incident` returns
true exactly when the status code is 200, and false for any other status
code; the `Bool` return type reflects that no exception is raised for a
received response. -/
theorem ack_status_iff (resp : HttpResponse) :
    (acknowledge_incident resp = true ↔ resp.status_code = 200) ∧
    (resp.status_code ≠ 200 → acknowledge_incident resp = false) := by
  constructor
  · simp [acknowledge_incident]
  · intro h; simp [acknowledge_incident, h]

/-- Witness for C6: a 409 conflict response yields `false`. -/
theorem ack_status_iff_witness :
    acknowledge_incident ⟨409⟩ = false :=
  (ack_status_iff ⟨409⟩).2 (by decide)

/-- C7: when the acknowledgement of an eligible incident returns false,
the cycle records exactly the age computation and the single
acknowledgement call for it — no notification, no retry, no error — and
processing continues with the rest of the fetched triggered list. -/
theorem ack_false_no_notify_proceed (env : CycleEnv) (N : ℕ) (inc : Incident)
    (rest : List Incident) (idx : ℕ)
    (helig : (N : ℚ) ≤ ageAt env.clock idx inc)
    (hack : env.ack inc.id = .ok false) :
    background_ack_incidents env N (inc :: rest) idx =
      (Event.age inc.id (ageAt env.clock idx inc) :: Event.ackCall inc.id ::
        (background_ack_incidents env N rest (idx + 1)).1,
       (background_ack_incidents env N rest (idx + 1)).2.1,
       (background_ack_incidents env N rest (idx + 1)).2.2) := by
  simp [background_ack_incidents, if_pos helig, hack]

/-- Witness for C7: a failed acknowledgement of the first incident still
lets the cycle process the second. -/
theorem ack_false_no_notify_proceed_witness :
    background_ack_incidents c7Env 3 (c1IncA :: [c1IncB]) 0 =
      (Event.age c1IncA.id (ageAt c7Env.clock 0 c1IncA) :: Event.ackCall c1IncA.id ::
        (background_ack_incidents c7Env 3 [c1IncB] (0 + 1)).1,
       (background_ack_incidents c7Env 3 [c1IncB] (0 + 1)).2.1,
       (background_ack_incidents c7Env 3 [c1IncB] (0 + 1)).2.2) :=
  ack_false_no_notify_proceed c7Env 3 c1IncA [c1IncB] 0
    (by norm_num [ageAt, get_incident_age_minutes, c7Env, c1IncA]) rfl

/-- C8: `get_incidents` is all-or-nothing: a successful result is the
full concatenation of both per-status responses (each received and
passing `raise_for_status`), and a failure of either per-status GET makes
the whole fetch raise — no partial list is ever returned. -/
theorem get_incidents_all_or_nothing (get : String → Except String GetResp) :
    (∀ l, get_incidents get = .ok l →
      ∃ r1 r2, get "triggered" = .ok r1 ∧ get "acknowledged" = .ok r2 ∧
        raise_for_status r1.status_code = .ok () ∧
        raise_for_status r2.status_code = .ok () ∧
        l = r1.incidents ++ r2.incidents) ∧
    (∀ s, s ∈ ["triggered", "acknowledged"] → ∀ e, get s = .error e →
      ∃ e2, get_incidents get = .error e2) := by
  constructor
  · intro l h
    cases h1 : get "triggered" with
    | error e => simp [get_incidents, get_incidents_loop, h1] at h
    | ok r1 =>
      cases o1 : raise_for_status r1.status_code with
      | error e => simp [get_incidents, get_incidents_loop, h1, o1] at h
      | ok u =>
        obtain ⟨⟩ := u
        cases h2 : get "acknowledged" with
        | error e => simp [get_incidents, get_incidents_loop, h1, o1, h2] at h
        | ok r2 =>
          cases o2 : raise_for_status r2.status_code with
          | error e => simp [get_incidents, get_incidents_loop, h1, o1, h2, o2] at h
          | ok u2 =>
            obtain ⟨⟩ := u2
            simp [get_incidents, get_incidents_loop, h1, o1, h2, o2] at h
            exact ⟨r1, r2, rfl, rfl, o1, o2, h.symm⟩
  · intro s hs e he
    simp only [List.mem_cons, List.not_mem_nil, or_false] at hs
    rcases hs with rfl | rfl
    · exact ⟨e, by simp [get_incidents, get_incidents_loop, he]⟩
    · cases h1 : get "triggered" with
      | error e1 => exact ⟨e1, by simp [get_incidents, get_incidents_loop, h1]⟩
      | ok r1 =>
        cases o1 : raise_for_status r1.status_code with
        | error e1 => exact ⟨e1, by simp [get_incidents, get_incidents_loop, h1, o1]⟩
        | ok u =>
          exact ⟨e, by simp [get_incidents, get_incidents_loop, h1, o1, he]⟩

/-- Witness for C8: a transport failure on the first status makes the
whole fetch raise. -/
theorem get_incidents_all_or_nothing_witness :
    ∃ e2, get_incidents (fun _ => .error "ConnectionError") = Except.error e2 :=
  (get_incidents_all_or_nothing (fun _ => .error "ConnectionError")).2
    "triggered" (by decide) "ConnectionError" rfl

/-- C9: when both per-status GETs succeed, `get_incidents` returns the
triggered sub-list followed by the acknowledged sub-list, each in its
received order; with 2 and 3 records the result has 5 elements. -/
theorem get_incidents_concat (get : String → Except String GetResp) (r1 r2 : GetResp)
    (h1 : get "triggered" = .ok r1) (h2 : get "acknowledged" = .ok r2)
    (o1 : raise_for_status r1.status_code = .ok ())
    (o2 : raise_for_status r2.status_code = .ok ()) :
    get_incidents get = .ok (r1.incidents ++ r2.incidents) ∧
    (r1.incidents.length = 2 → r2.incidents.length = 3 →
      (r1.incidents ++ r2.incidents).length = 5) := by
  constructor
  · simp [get_incidents, get_incidents_loop, h1, h2, o1, o2]
  · intro a b; simp [a, b]

/-- Witness for C9: the mock transport with 2 triggered and 3
acknowledged records yields their 5-element concatenation. -/
theorem get_incidents_concat_witness :
    get_incidents mockGet = .ok (mockR1.incidents ++ mockR2.incidents) ∧
    (mockR1.incidents.length = 2 → mockR2.incidents.length = 3 →
      (mockR1.incidents ++ mockR2.incidents).length = 5) :=
  get_incidents_concat mockGet mockR1 mockR2 rfl rfl rfl rfl

/-- C10: exception handling is per cycle, not per incident: when the
notification step of the incident at position `|pre|` of the cycle's
triggered list raises, the cycle's trace ends at that incident (none of
the later incidents is examined or acknowledged in that cycle), the
error is logged, exactly one sleep interval follows, and the daemon
proceeds to the next cycle's fresh fetch. -/
theorem exception_aborts_cycle (env : CycleEnv) (N : ℕ)
    (incs pre rest : List Incident) (inc : Incident) (e : String)
    (hf : env.fetch = .ok incs)
    (ht : triggeredOf incs = pre ++ inc :: rest)
    (hpre : (background_ack_incidents env N pre 0).2.2 = none)
    (helig : (N : ℚ) ≤ ageAt env.clock ((background_ack_incidents env N pre 0).2.1) inc)
    (hack : env.ack inc.id = .ok true)
    (hnote : env.notify notifTitle (notifBody inc) = .error e) :
    background_ack_cycle env N =
      ((background_ack_incidents env N pre 0).1 ++
        [Event.age inc.id (ageAt env.clock ((background_ack_incidents env N pre 0).2.1) inc),
         Event.ackCall inc.id, Event.noteCall notifTitle (notifBody inc)],
       some e) ∧
    background_ack_step env N =
      (background_ack_cycle env N).1.map DEvent.ev ++
        [DEvent.errorLogged e, DEvent.slept (N * 60)] ∧
    ∀ envs, background_ack_daemon (env :: envs) N =
      background_ack_step env N ++ background_ack_daemon envs N := by
  have hcyc : background_ack_cycle env N =
      ((background_ack_incidents env N pre 0).1 ++
        [Event.age inc.id (ageAt env.clock ((background_ack_incidents env N pre 0).2.1) inc),
         Event.ackCall inc.id, Event.noteCall notifTitle (notifBody inc)],
       some e) := by
    simp only [background_ack_cycle, hf, ht]
    rw [background_ack_incidents_append_ok env N pre 0 hpre (inc :: rest),
      bg_cons_note_error env N inc rest ((background_ack_incidents env N pre 0).2.1)
        e helig hack hnote]
  refine ⟨hcyc, ?_, fun envs => rfl⟩
  simp [background_ack_step, hcyc]

/-- Witness for C10: with a notification call that raises
`FileNotFoundError`, the cycle stops after the first incident (the
second is never examined) and the cycle reports the error. -/
theorem exception_aborts_cycle_witness :
    background_ack_cycle c10Env 3 =
      ((background_ack_incidents c10Env 3 [] 0).1 ++
        [Event.age c1IncA.id
          (ageAt c10Env.clock ((background_ack_incidents c10Env 3 [] 0).2.1) c1IncA),
         Event.ackCall c1IncA.id, Event.noteCall notifTitle (notifBody c1IncA)],
       some "FileNotFoundError") :=
  (exception_aborts_cycle c10Env 3 [c1IncA, c1IncB] [] [c1IncB] c1IncA "FileNotFoundError"
    rfl rfl rfl
    (by norm_num [background_ack_incidents, ageAt, get_incident_age_minutes, c10Env, c1IncA])
    rfl rfl).1

end PdCli
